import Mathlib

/-!
Verification of the genre-similarity recommendation core of
`src/RecommendationSystem.py` (the body of `Movie.post`, lines 29-56).

The embedding models the pipeline as a pure function from an in-memory
catalog (the rows returned by the SQL query, already ordered by
`movie_rate`) and a target title to an optional list of poster strings.
`none` models a raised Python exception (the sklearn "empty vocabulary"
error at line 39, or the numpy broadcast failure at line 50 when the
target title matches two or more rows).

Library calls are modelled by their documented behaviour:

* `CountVectorizer(min_df=0, ngram_range=(1,2))` lowercases each
  document, extracts tokens as maximal runs of word characters of
  length at least 2 (default token pattern `\b\w\w+\b`, ASCII inputs),
  and uses every 1-gram and every adjacent 2-gram as features; the
  count vectors are indexed by the vocabulary of all features seen in
  any document (vocabulary order never matters below, only the
  multiset of features, so the vocabulary is kept as a deduplicated
  list).
* `cosine_similarity(X, X)` is `normalize(X) @ normalize(X).T` where
  `normalize` divides each row by its Euclidean norm, rows of norm 0
  being divided by 1 instead.  Floating point numbers are modelled as
  exact reals.
* `argsort()[:, ::-1]` sorts each row ascending and reverses it.
  numpy uses insertion sort (which is stable) for rows of at most 16
  elements, so ties are modelled by a stable merge sort; comparisons
  between similarities are carried out exactly on natural numbers by
  cross-multiplying squares, which agrees with the real comparison
  because all dot products are nonnegative.
-/

namespace MovieShelf

/-- One row of the `movies` table as fetched at lines 31-34:
`SELECT movie_title, movie_poster, movie_genres FROM movies ORDER BY movie_rate`. -/
structure Movie where
  movie_title : String
  movie_poster : String
  movie_genres : String
deriving DecidableEq

/-- Line 36: `movies["movie_genres"].apply(lambda x : x.replace(',',''))`.
Replacing every comma by the empty string is exactly deleting every comma. -/
def genres_literal (m : Movie) : String :=
  ⟨m.movie_genres.data.filter (fun c => c ≠ ',')⟩

/-- Word characters of the default CountVectorizer token pattern `\w` (ASCII). -/
def isWordChar (c : Char) : Bool := c.isAlphanum || c == '_'

/-- Maximal runs of word characters of a character list (the accumulator holds
the current run, reversed). -/
def tokenRuns : List Char → List Char → List (List Char)
  | [], acc => if acc.isEmpty then [] else [acc.reverse]
  | c :: cs, acc =>
    if isWordChar c then tokenRuns cs (c :: acc)
    else if acc.isEmpty then tokenRuns cs []
    else acc.reverse :: tokenRuns cs []

/-- The CountVectorizer analyzer on one document: lowercase, then keep the
maximal runs of word characters having length at least 2 (token pattern
`(?u)\b\w\w+\b`). -/
def tokenize (s : String) : List String :=
  ((tokenRuns (s.data.map Char.toLower) []).filter (fun t => 2 ≤ t.length)).map
    List.asString

/-- Adjacent 2-grams, joined by one space as in sklearn. -/
def bigrams : List String → List String
  | a :: b :: rest => (a ++ " " ++ b) :: bigrams (b :: rest)
  | _ => []

/-- All features of one movie under `ngram_range=(1,2)`: its tokens and their
adjacent pairs. -/
def featuresOf (m : Movie) : List String :=
  tokenize (genres_literal m) ++ bigrams (tokenize (genres_literal m))

/-- The vocabulary fitted at line 39: every feature observed in any document,
each kept once. -/
def vocab (cat : List Movie) : List String :=
  ((cat.map featuresOf).flatten).dedup

/-- Entry of the count matrix `genre_mat`: how often feature `f` occurs in the
document of movie `m`. -/
def countFeat (m : Movie) (f : String) : ℕ :=
  (featuresOf m).count f

/-- Dot product of the count vectors of two movies over the fitted vocabulary. -/
def dotF (cat : List Movie) (a b : Movie) : ℕ :=
  ((vocab cat).map (fun f => countFeat a f * countFeat b f)).sum

/-- Squared Euclidean norm of the count vector of `a`, with the sklearn
`normalize` convention that a zero norm is replaced by 1. -/
def nrmSq (cat : List Movie) (a : Movie) : ℕ :=
  if dotF cat a a = 0 then 1 else dotF cat a a

/-- Row `i` of the catalog (DataFrame positional indexing). -/
def mv (cat : List Movie) (i : ℕ) : Movie :=
  cat.getD i ⟨"", "", ""⟩

/-- Exact comparison `genre_sim[t][i] <= genre_sim[t][j]` of two entries of the
cosine similarity matrix, carried out on naturals: with `d = dot`, `n = nrmSq`,
the inequality `d t i / √(n t * n i) ≤ d t j / √(n t * n j)` is equivalent to
`(d t i)^2 * n j ≤ (d t j)^2 * n i` since all quantities are nonnegative and
the norms are positive. -/
def simLeP (cat : List Movie) (t : ℕ) (i j : ℕ) : Prop :=
  (dotF cat (mv cat t) (mv cat i))^2 * nrmSq cat (mv cat j)
    ≤ (dotF cat (mv cat t) (mv cat j))^2 * nrmSq cat (mv cat i)

instance (cat : List Movie) (t : ℕ) : DecidableRel (simLeP cat t) :=
  fun _ _ => Nat.decLe _ _

/-- Line 41 for row `t`: `genre_sim.argsort()[:, ::-1]`, i.e. the indices
`0..n-1` sorted ascending by similarity to row `t` (insertion sort, which is
what numpy uses on rows of at most 16 elements, is stable) and reversed. -/
def sortedRow (cat : List Movie) (t : ℕ) : List ℕ :=
  ((List.range cat.length).insertionSort (simLeP cat t)).reverse

/-- Lines 43-44: positions of the rows whose `movie_title` equals the target
(`movies[movies['movie_title'] == target].index.values`), in ascending order. -/
def targetIdxs (cat : List Movie) (target : String) : List ℕ :=
  (List.range cat.length).filter (fun i => (mv cat i).movie_title == target)

/-- Lines 46-50: take the first 16 columns of the sorted rows selected by
`title_index`, flatten them, and drop every index equal to the target index
(`similar_indexes[similar_indexes != title_index]`, numpy broadcast semantics
for a `title_index` of length at most 1). -/
def selIdxs (cat : List Movie) (target : String) : List ℕ :=
  (((targetIdxs cat target).map (fun t => (sortedRow cat t).take 16)).flatten).filter
    (fun i => !((targetIdxs cat target).contains i))

/-- The recommendation core, lines 36-54 of `Movie.post`: the list of
`movie_poster` values of the selected rows.  `none` models a raised
exception: sklearn raises `ValueError: empty vocabulary` at line 39 when no
document contributes a token (in particular on an empty catalog), and the
filtering at line 50 raises a numpy broadcast error when `title_index` has
two or more entries (shapes `(len(title_index)*min(16,n),)` versus
`(len(title_index),)` are incompatible then). -/
def recommend (cat : List Movie) (target : String) : Option (List String) :=
  if vocab cat = [] then none
  else if 2 ≤ (targetIdxs cat target).length then none
  else some ((selIdxs cat target).map (fun i => (mv cat i).movie_poster))

/-- Exact value of the cosine similarity matrix entry for the rows of movies
`a` and `b` (line 40), as a real number. -/
noncomputable def cosSim (cat : List Movie) (a b : Movie) : ℝ :=
  (dotF cat a b : ℝ) / (Real.sqrt (nrmSq cat a) * Real.sqrt (nrmSq cat b))

/-- The catalog of the scenario fixed in the specification, in catalog order. -/
def scenarioCat : List Movie :=
  [⟨"Alien", "p1", "Horror,Sci-Fi"⟩, ⟨"Saw", "p2", "Horror"⟩,
    ⟨"Up", "p3", "Animation,Family"⟩]

/-! ### Basic facts about the similarity order -/

lemma nrmSq_pos (cat : List Movie) (a : Movie) : 0 < nrmSq cat a := by
  unfold nrmSq
  split
  · exact Nat.one_pos
  · omega

/-- Transitivity of the cross-multiplied comparison of fractions
`a / √na ≤ b / √nb`, on naturals. -/
lemma crossmul_trans {a b c na nb nc : ℕ} (hb : 0 < nb)
    (h1 : a * nb ≤ b * na) (h2 : b * nc ≤ c * nb) : a * nc ≤ c * na := by
  have h3 : a * nc * nb ≤ c * na * nb := by
    calc a * nc * nb = a * nb * nc := by ring
    _ ≤ b * na * nc := Nat.mul_le_mul_right _ h1
    _ = b * nc * na := by ring
    _ ≤ c * nb * na := Nat.mul_le_mul_right _ h2
    _ = c * na * nb := by ring
  exact Nat.le_of_mul_le_mul_right h3 hb

instance (cat : List Movie) (t : ℕ) : IsTotal ℕ (simLeP cat t) :=
  ⟨fun _ _ => Nat.le_total _ _⟩

instance (cat : List Movie) (t : ℕ) : IsTrans ℕ (simLeP cat t) :=
  ⟨fun _ _ _ h1 h2 => crossmul_trans (nrmSq_pos cat _) h1 h2⟩

lemma sortedRow_perm (cat : List Movie) (t : ℕ) :
    (sortedRow cat t).Perm (List.range cat.length) :=
  (List.reverse_perm _).trans (List.perm_insertionSort _ _)

lemma mem_sortedRow (cat : List Movie) (t i : ℕ) :
    i ∈ sortedRow cat t ↔ i < cat.length := by
  rw [(sortedRow_perm cat t).mem_iff, List.mem_range]

lemma sortedRow_nodup (cat : List Movie) (t : ℕ) : (sortedRow cat t).Nodup :=
  ((sortedRow_perm cat t).nodup_iff).2 (List.nodup_range _)

lemma sortedRow_length (cat : List Movie) (t : ℕ) :
    (sortedRow cat t).length = cat.length :=
  (sortedRow_perm cat t).length_eq.trans (List.length_range _)

/-- The reversed ascending-sorted row is descending in similarity: every
earlier index has a similarity at least that of every later index. -/
lemma sortedRow_pairwise (cat : List Movie) (t : ℕ) :
    (sortedRow cat t).Pairwise (fun i j => simLeP cat t j i) :=
  List.pairwise_reverse.2 (List.sorted_insertionSort (simLeP cat t) _)

/-! ### The selected indices under a unique target match -/

lemma selIdxs_eq (cat : List Movie) (target : String) (t : ℕ)
    (h : targetIdxs cat target = [t]) :
    selIdxs cat target =
      ((sortedRow cat t).take 16).filter (fun i => decide (i ≠ t)) := by
  unfold selIdxs
  rw [h]
  simp only [List.map_cons, List.map_nil, List.flatten_cons, List.flatten_nil,
    List.append_nil]
  apply List.filter_congr
  intro i _
  simp [List.contains, decide_not]

lemma mem_selIdxs (cat : List Movie) (target : String) (t : ℕ)
    (h : targetIdxs cat target = [t]) {i : ℕ} (hi : i ∈ selIdxs cat target) :
    i < cat.length ∧ i ≠ t := by
  rw [selIdxs_eq cat target t h] at hi
  have h1 := List.mem_filter.1 hi
  refine ⟨?_, by simpa using h1.2⟩
  have h3 : i ∈ sortedRow cat t := (List.take_sublist _ _).subset h1.1
  exact (mem_sortedRow cat t i).1 h3

lemma selIdxs_nodup (cat : List Movie) (target : String) (t : ℕ)
    (h : targetIdxs cat target = [t]) : (selIdxs cat target).Nodup := by
  rw [selIdxs_eq cat target t h]
  exact List.Nodup.sublist
    ((List.filter_sublist _).trans (List.take_sublist _ _)) (sortedRow_nodup cat t)

lemma selIdxs_pairwise (cat : List Movie) (target : String) (t : ℕ)
    (h : targetIdxs cat target = [t]) :
    (selIdxs cat target).Pairwise (fun i j => simLeP cat t j i) := by
  rw [selIdxs_eq cat target t h]
  exact List.Pairwise.sublist
    ((List.filter_sublist _).trans (List.take_sublist _ _)) (sortedRow_pairwise cat t)

/-! ### Exact real-valued facts about the cosine similarity matrix -/

lemma list_map_sum_eq (l : List String) (f : String → ℕ) :
    (l.map f).sum = ∑ i in Finset.range l.length, f (l.getD i "") := by
  induction l with
  | nil => simp
  | cons a l ih =>
      rw [List.map_cons, List.sum_cons, List.length_cons, Finset.sum_range_succ']
      simp only [List.getD_cons_succ, List.getD_cons_zero, ih]
      omega

/-- Cauchy-Schwarz for the count vectors: the squared dot product of two rows
is at most the product of their squared norms. -/
lemma dotF_sq_le (cat : List Movie) (a b : Movie) :
    (dotF cat a b)^2 ≤ dotF cat a a * dotF cat b b := by
  unfold dotF
  rw [list_map_sum_eq, list_map_sum_eq, list_map_sum_eq]
  have h := Finset.sum_mul_sq_le_sq_mul_sq (Finset.range (vocab cat).length)
    (fun i => countFeat a ((vocab cat).getD i ""))
    (fun i => countFeat b ((vocab cat).getD i ""))
  simpa [pow_two] using h

lemma dotF_self_le_nrmSq (cat : List Movie) (a : Movie) :
    dotF cat a a ≤ nrmSq cat a := by
  unfold nrmSq
  split <;> omega

/-- A movie of the catalog with at least one feature has a positive squared
norm. -/
lemma dotF_self_pos (cat : List Movie) (a : Movie) (ha : a ∈ cat)
    (hf : featuresOf a ≠ []) : 0 < dotF cat a a := by
  obtain ⟨f, hfmem⟩ := List.exists_mem_of_ne_nil _ hf
  have hv : f ∈ vocab cat :=
    List.mem_dedup.2 (List.mem_flatten.2 ⟨featuresOf a, List.mem_map_of_mem _ ha, hfmem⟩)
  have hc : 0 < countFeat a f := List.count_pos_iff.2 hfmem
  have hmem : countFeat a f * countFeat a f ∈
      (vocab cat).map (fun g => countFeat a g * countFeat a g) :=
    List.mem_map_of_mem _ hv
  have hle := List.single_le_sum (fun x _ => Nat.zero_le x) _ hmem
  exact lt_of_lt_of_le (Nat.mul_pos hc hc) hle

lemma sqrt_nrmSq_pos (cat : List Movie) (a : Movie) :
    0 < Real.sqrt (nrmSq cat a) :=
  Real.sqrt_pos.2 (by exact_mod_cast nrmSq_pos cat a)

/-- The exact comparison used by the sorting model agrees with the comparison
of the real cosine similarities. -/
lemma cosSim_le_iff (cat : List Movie) (t i j : ℕ) :
    cosSim cat (mv cat t) (mv cat i) ≤ cosSim cat (mv cat t) (mv cat j) ↔
      simLeP cat t i j := by
  unfold cosSim simLeP
  rw [div_le_div_iff₀
    (mul_pos (sqrt_nrmSq_pos cat _) (sqrt_nrmSq_pos cat _))
    (mul_pos (sqrt_nrmSq_pos cat _) (sqrt_nrmSq_pos cat _))]
  rw [mul_left_comm ((dotF cat (mv cat t) (mv cat i) : ℝ))
      (Real.sqrt (nrmSq cat (mv cat t))) (Real.sqrt (nrmSq cat (mv cat j))),
    mul_left_comm ((dotF cat (mv cat t) (mv cat j) : ℝ))
      (Real.sqrt (nrmSq cat (mv cat t))) (Real.sqrt (nrmSq cat (mv cat i)))]
  rw [mul_le_mul_left (sqrt_nrmSq_pos cat _)]
  have hrw : ∀ d m : ℕ, (d : ℝ) * Real.sqrt m = Real.sqrt (d^2 * m) := by
    intro d m
    rw [Real.sqrt_mul (by positivity), Real.sqrt_sq (by positivity)]
  rw [hrw, hrw, Real.sqrt_le_sqrt_iff (by positivity)]
  exact_mod_cast Iff.rfl

lemma cosSim_nonneg (cat : List Movie) (a b : Movie) : 0 ≤ cosSim cat a b :=
  div_nonneg (Nat.cast_nonneg _)
    (mul_nonneg (Real.sqrt_nonneg _) (Real.sqrt_nonneg _))

lemma cosSim_le_one (cat : List Movie) (a b : Movie) : cosSim cat a b ≤ 1 := by
  unfold cosSim
  apply div_le_one_of_le₀
  · rw [← Real.sqrt_mul (by positivity)]
    rw [show ((dotF cat a b : ℝ)) = Real.sqrt ((dotF cat a b)^2) from
      (Real.sqrt_sq (by positivity)).symm]
    apply Real.sqrt_le_sqrt
    have h1 : (dotF cat a b)^2 ≤ nrmSq cat a * nrmSq cat b :=
      le_trans (dotF_sq_le cat a b)
        (Nat.mul_le_mul (dotF_self_le_nrmSq cat a) (dotF_self_le_nrmSq cat b))
    exact_mod_cast h1
  · positivity

lemma cosSim_self (cat : List Movie) (a : Movie) (h : 0 < dotF cat a a) :
    cosSim cat a a = 1 := by
  unfold cosSim nrmSq
  rw [if_neg (Nat.pos_iff_ne_zero.1 h)]
  rw [Real.mul_self_sqrt (Nat.cast_nonneg _)]
  exact div_self (by exact_mod_cast h.ne')

/-! ### Concrete catalogs used as inputs -/

/-- Following the words of the spec (§3 data model): the genre labels of a
movie are the comma-delimited components of its stored genre string
(lowercased here so that they can be compared with the lowercased vectorizer
features).  This definition follows the specification, not the code: the code
deletes the commas instead of splitting at them. -/
def commaSplit : List Char → List Char → List (List Char)
  | [], acc => [acc.reverse]
  | c :: cs, acc => if c = ',' then acc.reverse :: commaSplit cs [] else commaSplit cs (c :: acc)

/-- Genre tokens as the spec describes them: the comma-separated components. -/
def specGenreTokens (m : Movie) : List String :=
  (commaSplit (m.movie_genres.data.map Char.toLower) []).map List.asString

/-- A catalog of 17 movies sharing one genre: every similarity is exactly 1,
so the reversed stable argsort of the target row of ties is `[16, ..., 0]`
and the first 16 entries miss index 0. -/
def bigCat : List Movie :=
  [⟨"m00", "q00", "Horror"⟩, ⟨"m01", "q01", "Horror"⟩, ⟨"m02", "q02", "Horror"⟩,
    ⟨"m03", "q03", "Horror"⟩, ⟨"m04", "q04", "Horror"⟩, ⟨"m05", "q05", "Horror"⟩,
    ⟨"m06", "q06", "Horror"⟩, ⟨"m07", "q07", "Horror"⟩, ⟨"m08", "q08", "Horror"⟩,
    ⟨"m09", "q09", "Horror"⟩, ⟨"m10", "q10", "Horror"⟩, ⟨"m11", "q11", "Horror"⟩,
    ⟨"m12", "q12", "Horror"⟩, ⟨"m13", "q13", "Horror"⟩, ⟨"m14", "q14", "Horror"⟩,
    ⟨"m15", "q15", "Horror"⟩, ⟨"m16", "q16", "Horror"⟩]

/-- A catalog whose second movie has a non-empty genre string that yields no
token (the default token pattern needs two word characters), hence a zero
count vector. -/
def degenerateCat : List Movie := [⟨"M1", "p1", "Horror"⟩, ⟨"M2", "p2", "A"⟩]

/-! ### Claim theorems -/

/-- C1: with the catalog of the fixed scenario and target "Alien", the code
returns the posters in the order `["p3", "p2"]` - poster `p2` is ranked
strictly BEHIND `p3`, because deleting the comma at line 36 turns
"Horror,Sci-Fi" into the tokens `horrorsci` and `fi`, which share no feature
with "Horror"; both candidate similarities are 0 and the reversed stable
argsort lists index 2 before index 1.  This exhibits the code behaviour that
contradicts the claim (`p2` strictly ahead of `p3`). -/
theorem C1_code_behavior : recommend scenarioCat "Alien" = some ["p3", "p2"] := by
  decide

/-- C2: the movies "Alien" and "Saw" share the comma-delimited genre token
"horror", the feature "horror" is in the fitted vocabulary, the count vector
of "Saw" is nonzero on it, yet the count vector of "Alien" is zero on it -
because line 36 deletes the comma instead of replacing it with a separator,
so the genre string of "Alien" is vectorized as `horrorsci`, `fi`,
`horrorsci fi`.  This exhibits the code behaviour that contradicts the
claim. -/
theorem C2_shared_token_vector_zero :
    "horror" ∈ specGenreTokens ⟨"Alien", "p1", "Horror,Sci-Fi"⟩ ∧
    "horror" ∈ specGenreTokens ⟨"Saw", "p2", "Horror"⟩ ∧
    "horror" ∈ vocab scenarioCat ∧
    0 < countFeat ⟨"Saw", "p2", "Horror"⟩ "horror" ∧
    countFeat ⟨"Alien", "p1", "Horror,Sci-Fi"⟩ "horror" = 0 := by
  decide

/-- C3 counterexample: on 17 movies of identical genre and target the first
movie, every similarity ties at 1, the target index 0 is not among the first
16 entries of its reversed sorted row, nothing is removed by the filter, and
the result has 16 > 15 posters. -/
theorem C3_length_16_counterexample :
    Option.map List.length (recommend bigCat "m00") = some 16 := by decide

/-- C3 amended: the result of the recommendation, when the code returns one,
has length at most k + 1 = 16 (the bound 15 of the claim fails, see the
counterexample). -/
theorem C3_length_le_16 (cat : List Movie) (target : String) (l : List String)
    (h : recommend cat target = some l) : l.length ≤ 16 := by
  unfold recommend at h
  by_cases hv : vocab cat = []
  · simp [hv] at h
  rw [if_neg hv] at h
  by_cases h2 : 2 ≤ (targetIdxs cat target).length
  · simp [h2] at h
  rw [if_neg h2] at h
  have hl : (selIdxs cat target).map (fun i => (mv cat i).movie_poster) = l :=
    Option.some.inj h
  rw [← hl, List.length_map]
  unfold selIdxs
  rcases hti : targetIdxs cat target with _ | ⟨t, _ | ⟨b, r⟩⟩
  · simp
  · simp only [List.map_cons, List.map_nil, List.flatten_cons, List.flatten_nil,
      List.append_nil]
    calc (((sortedRow cat t).take 16).filter _).length
        ≤ ((sortedRow cat t).take 16).length := List.length_filter_le _ _
      _ ≤ 16 := List.length_take_le _ _
  · rw [hti] at h2
    exact absurd (by simp) h2

/-- C3 witness. -/
theorem C3_length_le_16_witness :
    recommend scenarioCat "Alien" = some ["p3", "p2"] ∧
      (["p3", "p2"] : List String).length ≤ 16 :=
  ⟨by decide, C3_length_le_16 scenarioCat "Alien" ["p3", "p2"] (by decide)⟩

/-- C4: when the target title occurs at exactly one row index `t`, the index
`t` is excluded from the selected indices, so the returned sequence is built
only from other rows. -/
theorem C4_self_exclusion (cat : List Movie) (target : String) (t : ℕ)
    (h : targetIdxs cat target = [t]) : t ∉ selIdxs cat target := by
  intro hmem
  exact (mem_selIdxs cat target t h hmem).2 rfl

/-- C4 witness. -/
theorem C4_self_exclusion_witness :
    targetIdxs scenarioCat "Alien" = [0] ∧ 0 ∉ selIdxs scenarioCat "Alien" :=
  ⟨by decide, C4_self_exclusion scenarioCat "Alien" 0 (by decide)⟩

/-- C5 counterexample: a non-empty catalog whose single genre string yields no
token makes the vectorizer raise (empty vocabulary), so an absent target does
not produce an empty result but an error. -/
theorem C5_error_counterexample :
    recommend [⟨"Solo", "p9", "A"⟩] "Other" = none := by decide

/-- C5 amended: for every catalog whose fitted vocabulary is non-empty (so
that line 39 does not raise) and every target title matching no row, the code
returns the empty list, without signalling an error. -/
theorem C5_empty_on_absent (cat : List Movie) (target : String)
    (hv : vocab cat ≠ []) (h : targetIdxs cat target = []) :
    recommend cat target = some [] := by
  unfold recommend
  rw [if_neg hv]
  simp [selIdxs, h]

/-- C5 witness. -/
theorem C5_empty_on_absent_witness :
    vocab scenarioCat ≠ [] ∧ targetIdxs scenarioCat "Zzz" = [] ∧
      recommend scenarioCat "Zzz" = some [] :=
  ⟨by decide, by decide, C5_empty_on_absent scenarioCat "Zzz" (by decide) (by decide)⟩

/-- C6 counterexample: on a catalog of 0 movies the vectorizer raises
(sklearn: empty vocabulary), so the operation signals an error instead of
returning an empty result. -/
theorem C6_empty_catalog_error : recommend [] "Alien" = none := by decide

/-- C6 amended: a catalog of exactly 1 movie whose genre string yields at
least one token gives an empty result and no error, for every target. -/
theorem C6_singleton_empty (m : Movie) (target : String)
    (hf : featuresOf m ≠ []) : recommend [m] target = some [] := by
  have hv : vocab [m] ≠ [] := by
    simpa [vocab, List.dedup_eq_nil] using hf
  unfold recommend
  rw [if_neg hv]
  have ht : targetIdxs [m] target = [] ∨ targetIdxs [m] target = [0] := by
    unfold targetIdxs
    have hr : List.range ([m].length) = [0] := rfl
    rw [hr]
    cases h0 : (mv [m] 0).movie_title == target <;> simp [List.filter, h0]
  have hs : sortedRow [m] 0 = [0] := rfl
  rcases ht with ht | ht <;> simp [selIdxs, ht, hs]

/-- C6 witness. -/
theorem C6_singleton_empty_witness :
    featuresOf ⟨"Saw", "p2", "Horror"⟩ ≠ [] ∧
      recommend [⟨"Saw", "p2", "Horror"⟩] "Saw" = some [] :=
  ⟨by decide, C6_singleton_empty ⟨"Saw", "p2", "Horror"⟩ "Saw" (by decide)⟩

/-- C7: when the target title occurs at exactly one row index `t`, the
sequence of selected indices (whose poster fields form the returned
sequence, in order) is non-increasing in real cosine similarity to the
target row: a later element never has strictly higher similarity than an
earlier one. -/
theorem C7_similarity_monotone (cat : List Movie) (target : String) (t : ℕ)
    (h : targetIdxs cat target = [t]) (a b : ℕ)
    (ha : a < (selIdxs cat target).length) (hb : b < (selIdxs cat target).length)
    (hab : a ≤ b) :
    cosSim cat (mv cat t) (mv cat ((selIdxs cat target).get ⟨b, hb⟩))
      ≤ cosSim cat (mv cat t) (mv cat ((selIdxs cat target).get ⟨a, ha⟩)) := by
  simp only [List.get_eq_getElem]
  rcases Nat.lt_or_ge a b with hlt | hge
  · have hp := selIdxs_pairwise cat target t h
    have hr := List.pairwise_iff_getElem.1 hp a b ha hb hlt
    exact (cosSim_le_iff cat t _ _).2 hr
  · have hab2 : a = b := le_antisymm hab hge
    subst hab2
    exact le_refl _

/-- C7 witness. -/
theorem C7_similarity_monotone_witness :
    cosSim scenarioCat (mv scenarioCat 0)
        (mv scenarioCat ((selIdxs scenarioCat "Alien").get ⟨1, by decide⟩))
      ≤ cosSim scenarioCat (mv scenarioCat 0)
        (mv scenarioCat ((selIdxs scenarioCat "Alien").get ⟨0, by decide⟩)) :=
  C7_similarity_monotone scenarioCat "Alien" 0 (by decide) 0 1
    (by decide) (by decide) (by decide)

/-- C8 counterexample: the second movie of `degenerateCat` has the non-empty
genre string "A", which yields no token, so its count vector is zero and its
diagonal similarity is 0, not 1. -/
theorem C8_diag_counterexample :
    cosSim degenerateCat (mv degenerateCat 1) (mv degenerateCat 1) ≠ 1 := by
  have hd : dotF degenerateCat (mv degenerateCat 1) (mv degenerateCat 1) = 0 := by
    decide
  unfold cosSim
  rw [hd]
  norm_num

/-- C8 amended: when every movie of the catalog has a genre string yielding
at least one token, every entry of the similarity matrix lies in [0, 1] and
the diagonal entries equal 1.  (The two bounds hold for every catalog; the
diagonal needs the non-degeneracy hypothesis, see the counterexample.) -/
theorem C8_sim_bounds (cat : List Movie)
    (hfeat : ∀ m ∈ cat, featuresOf m ≠ []) (i j : ℕ)
    (hi : i < cat.length) (_hj : j < cat.length) :
    0 ≤ cosSim cat (mv cat i) (mv cat j) ∧ cosSim cat (mv cat i) (mv cat j) ≤ 1 ∧
      cosSim cat (mv cat i) (mv cat i) = 1 := by
  have hmem : mv cat i ∈ cat := by
    unfold mv
    rw [List.getD_eq_getElem _ _ hi]
    exact List.getElem_mem hi
  exact ⟨cosSim_nonneg cat _ _, cosSim_le_one cat _ _,
    cosSim_self cat _ (dotF_self_pos cat _ hmem (hfeat _ hmem))⟩

/-- C8 witness. -/
theorem C8_sim_bounds_witness :
    0 ≤ cosSim scenarioCat (mv scenarioCat 0) (mv scenarioCat 1) ∧
      cosSim scenarioCat (mv scenarioCat 0) (mv scenarioCat 1) ≤ 1 ∧
      cosSim scenarioCat (mv scenarioCat 0) (mv scenarioCat 0) = 1 :=
  C8_sim_bounds scenarioCat (by decide) 0 1 (by decide) (by decide)

/-- C9: when the target title occurs at exactly one row index `t`, the
selected indices are exactly the first 16 entries of the reversed sorted row
of `t` with every occurrence of `t` removed; the sorted row is a permutation
of all row indices, ordered by non-increasing cosine similarity to `t`; the
slice takes all indices when the catalog has at most 16 rows; and the
returned value maps the selection to posters (when the vectorizer does not
raise). -/
theorem C9_topk_selection (cat : List Movie) (target : String) (t : ℕ)
    (h : targetIdxs cat target = [t]) :
    selIdxs cat target = ((sortedRow cat t).take 16).filter (fun i => decide (i ≠ t)) ∧
    (sortedRow cat t).Perm (List.range cat.length) ∧
    (sortedRow cat t).Pairwise
      (fun i j => cosSim cat (mv cat t) (mv cat j) ≤ cosSim cat (mv cat t) (mv cat i)) ∧
    (cat.length ≤ 16 → (sortedRow cat t).take 16 = sortedRow cat t) ∧
    (vocab cat ≠ [] → recommend cat target =
      some ((selIdxs cat target).map (fun i => (mv cat i).movie_poster))) := by
  refine ⟨selIdxs_eq cat target t h, sortedRow_perm cat t, ?_, ?_, ?_⟩
  · exact (sortedRow_pairwise cat t).imp (fun hr => (cosSim_le_iff cat t _ _).2 hr)
  · intro hn
    exact List.take_of_length_le (by rw [sortedRow_length]; exact hn)
  · intro hv
    unfold recommend
    rw [if_neg hv, if_neg (by rw [h]; simp)]

/-- C9 witness. -/
theorem C9_topk_selection_witness :
    (selIdxs scenarioCat "Alien" =
      ((sortedRow scenarioCat 0).take 16).filter (fun i => decide (i ≠ 0)) ∧
    (sortedRow scenarioCat 0).Perm (List.range scenarioCat.length) ∧
    (sortedRow scenarioCat 0).Pairwise
      (fun i j => cosSim scenarioCat (mv scenarioCat 0) (mv scenarioCat j)
        ≤ cosSim scenarioCat (mv scenarioCat 0) (mv scenarioCat i)) ∧
    (scenarioCat.length ≤ 16 →
      (sortedRow scenarioCat 0).take 16 = sortedRow scenarioCat 0) ∧
    (vocab scenarioCat ≠ [] → recommend scenarioCat "Alien" =
      some ((selIdxs scenarioCat "Alien").map
        (fun i => (mv scenarioCat i).movie_poster)))) :=
  C9_topk_selection scenarioCat "Alien" 0 (by decide)

/-- C10: when the target title occurs at exactly one row index `t`, the
selected indices are pairwise distinct valid row indices different from `t`,
and every poster of the returned sequence is the poster field of such a row;
in particular no catalog row contributes more than one entry. -/
theorem C10_valid_indices (cat : List Movie) (target : String) (t : ℕ)
    (h : targetIdxs cat target = [t]) :
    (selIdxs cat target).Nodup ∧
    (∀ i ∈ selIdxs cat target, i < cat.length ∧ i ≠ t) ∧
    ∀ p ∈ (selIdxs cat target).map (fun i => (mv cat i).movie_poster),
      ∃ i, i < cat.length ∧ i ≠ t ∧ p = (mv cat i).movie_poster := by
  refine ⟨selIdxs_nodup cat target t h, fun i hi => mem_selIdxs cat target t h hi, ?_⟩
  intro p hp
  obtain ⟨i, hi, hpi⟩ := List.mem_map.1 hp
  obtain ⟨h1, h2⟩ := mem_selIdxs cat target t h hi
  exact ⟨i, h1, h2, hpi.symm⟩

/-- C10 witness. -/
theorem C10_valid_indices_witness :
    ((selIdxs scenarioCat "Alien").Nodup ∧
    (∀ i ∈ selIdxs scenarioCat "Alien", i < scenarioCat.length ∧ i ≠ 0) ∧
    ∀ p ∈ (selIdxs scenarioCat "Alien").map
        (fun i => (mv scenarioCat i).movie_poster),
      ∃ i, i < scenarioCat.length ∧ i ≠ 0 ∧ p = (mv scenarioCat i).movie_poster) :=
  C10_valid_indices scenarioCat "Alien" 0 (by decide)

end MovieShelf
